import Mathlib

/-!
# Employee Status Tracker — verification of the reporting and submission core

Shallow embedding of the status-tracker application:
* the client status-update page (`StatusUpdate`: `canEdit`, `validateDate`,
  `handleSubmit`) — from `src/unnamed/part_000`;
* the Excel report route (`router.get('/excel')`) — from
  `src/server/routes/reports.js`;
* the question listing route (`router.get('/')`) — from
  `src/server/routes/questions.js`.

Dates are modelled at calendar-day granularity as epoch day numbers (`Int`),
matching the JavaScript code, which truncates every date to its ISO
`YYYY-MM-DD` day before comparing or keying.
-/

namespace StatusTracker

/-! ## Calendar dates

`daysFromCivil` maps a proleptic-Gregorian date to its epoch day number
(days since 1970-01-01), the day-granular content of a JS `Date`. -/

def daysFromCivil (y m d : Int) : Int :=
  let y' := if m ≤ 2 then y - 1 else y
  let era := Int.fdiv y' 400
  let yoe := y' - era * 400
  let doy := Int.fdiv (153 * (if m > 2 then m - 3 else m + 9) + 2) 5 + d - 1
  let doe := yoe * 365 + Int.fdiv yoe 4 - Int.fdiv yoe 100 + doy
  era * 146097 + doe - 719468

/-- Inverse of `daysFromCivil`: epoch day number to (year, month, day). -/
def civilFromDays (z0 : Int) : Int × Int × Int :=
  let z := z0 + 719468
  let era := Int.fdiv z 146097
  let doe := z - era * 146097
  let yoe := Int.fdiv (doe - Int.fdiv doe 1460 + Int.fdiv doe 36524 - Int.fdiv doe 146096) 365
  let y := yoe + era * 400
  let doy := doe - (365 * yoe + Int.fdiv yoe 4 - Int.fdiv yoe 100)
  let mp := Int.fdiv (5 * doy + 2) 153
  let d := doy - Int.fdiv (153 * mp + 2) 5 + 1
  let m := if mp < 10 then mp + 3 else mp - 9
  (if m ≤ 2 then y + 1 else y, m, d)

/-- Zero-pad a (two-digit) number, as in an ISO date component. -/
def pad2 (n : Int) : String :=
  if 0 ≤ n ∧ n < 10 then "0" ++ toString n else toString n

/-- Epoch day number rendered as the `YYYY-MM-DD` string the code gets from
`date.toISOString().split('T')[0]`. -/
def isoOfDay (z : Int) : String :=
  let c := civilFromDays z
  toString c.1 ++ "-" ++ pad2 c.2.1 ++ "-" ++ pad2 c.2.2

example : daysFromCivil 1970 1 1 = 0 := by decide
example : daysFromCivil 2024 6 10 - daysFromCivil 2024 6 8 = 2 := by decide
example : civilFromDays (daysFromCivil 2024 6 10) = (2024, 6, 10) := by decide
example : isoOfDay (daysFromCivil 2024 6 9) = "2024-06-09" := by decide

/-! ## JS string primitives

`String.prototype.trim` and `String.prototype.split`, embedded as
structural functions on the string's character list. -/

/-- JS `s.trim()`: strip whitespace from both ends. -/
def jsTrim (s : String) : String :=
  ⟨((s.data.dropWhile Char.isWhitespace).reverse.dropWhile Char.isWhitespace).reverse⟩

/-- Split a character list at every occurrence of `sep`; the empty list
yields one empty field, as JS `"".split(',')` yields `[""]`. -/
def splitOnChar (sep : Char) : List Char → List (List Char)
  | [] => [[]]
  | c :: rest =>
    let r := splitOnChar sep rest
    if c = sep then [] :: r
    else
      match r with
      | [] => [[c]]
      | h :: t => (c :: h) :: t

/-- JS `s.split(sep)` for a one-character separator. -/
def jsSplit (s : String) (sep : Char) : List String :=
  (splitOnChar sep s.data).map (fun l => ⟨l⟩)

example : jsTrim "  a " = "a" := by decide
example : jsSplit "A,B" ',' = ["A", "B"] := by decide

/-! ## Client status-update page (`src/unnamed/part_000`) -/

/-- The client's current-user object (`/api/auth/me`); `role` is a plain
string in the source. -/
structure ClientUser where
  id : String
  name : String
  email : String
  role : String
  deriving Repr, DecidableEq

/-- The `updatedBy` field of a fetched status. The TS interface declares only
`name`, but `canEdit` also reads `updatedBy.id`, which may be absent
(`undefined`) at runtime — hence the `Option`. -/
structure UpdatedBy where
  id : Option String
  name : String
  deriving Repr, DecidableEq

/-- The slice of `previousStatus` that `canEdit` inspects.  `updatedBy` is
guarded with `previousStatus.updatedBy && …` in the source, so it may be
absent. -/
structure PreviousStatus where
  updatedBy : Option UpdatedBy
  deriving Repr, DecidableEq

/-- Function `canEdit` from `StatusUpdate` (src/unnamed/part_000, lines 69–79):
no existing data ⇒ true; otherwise requires a current user and grants
access to the record's own submitter (matched by id **or by name**) and to
managers/admins. -/
def canEdit (currentUser : Option ClientUser) (previousStatus : Option PreviousStatus) : Bool :=
  match previousStatus with
  | none => true
  | some ps =>
    match currentUser with
    | none => false
    | some u =>
      let isOwnStatus :=
        match ps.updatedBy with
        | none => false
        | some ub =>
          (match ub.id with
           | some i => u.id == i
           | none => false) || u.name == ub.name
      isOwnStatus || u.role == "manager" || u.role == "admin"

/-- Value `minDate` (src/unnamed/part_000 line 60): today minus two days. -/
def minDate (today : Int) : Int := today - 2

/-- Value `maxDate` (src/unnamed/part_000 line 61): today. -/
def maxDate (today : Int) : Int := today

/-- Function `validateDate` (src/unnamed/part_000 lines 189–195): the selected day is
between `minDate` and `maxDate`, inclusive. -/
def validateDate (date today : Int) : Bool :=
  decide (minDate today ≤ date) && decide (date ≤ maxDate today)

/-- One entry of the client `responses` state: a question id and the typed
answer. -/
structure StatusResponse where
  question : String
  answer : String
  deriving Repr, DecidableEq

/-- The `statusData` payload that `handleSubmit` posts to `/api/status`. -/
structure StatusData where
  team : String
  user : String
  date : Int
  isLeave : Bool
  leaveReason : Option String
  responses : List StatusResponse
  deriving Repr, DecidableEq

/-- The validation/payload-construction part of `handleSubmit`
(src/unnamed/part_000, lines 216–251): check the date window, then either
require a non-blank leave reason (leave branch, which posts
`responses: []`) or keep only non-blank answers and require at least one
(status branch).  `Except.error` models the thrown `Error` — nothing is
posted, so no record is stored. -/
def handleSubmit (teamId : String) (userId : String) (selectedDate today : Int)
    (isLeave : Bool) (leaveReason : String) (responses : List StatusResponse) :
    Except String StatusData :=
  if ¬ validateDate selectedDate today then
    .error "You can only add status for today or the last two days"
  else if isLeave then
    if jsTrim leaveReason = "" then
      .error "Please provide a reason for leave"
    else
      .ok { team := teamId, user := userId, date := selectedDate,
            isLeave := true, leaveReason := some (jsTrim leaveReason), responses := [] }
  else
    let validResponses := responses.filter (fun r => jsTrim r.answer ≠ "")
    if validResponses.length = 0 then
      .error "Please provide at least one response"
    else
      .ok { team := teamId, user := userId, date := selectedDate,
            isLeave := false, leaveReason := none, responses := validResponses }

/-! ## Server data model

A Mongo collection is modelled as a list in natural (insertion) order;
`find` filters it, preserving that order, which mirrors Mongo's natural
order on an unsorted query. -/

/-- A `Team` document: id, name, owning project. -/
structure Team where
  tid : String
  name : String
  project : String
  deriving Repr, DecidableEq

/-- A `Project` document: id and its manager user ids. -/
structure Project where
  pid : String
  managers : List String
  deriving Repr, DecidableEq

/-- A `User` document: id, name, team memberships. -/
structure DBUser where
  uid : String
  name : String
  teams : List String
  deriving Repr, DecidableEq

/-- A `Question` document (src/server/models/Question.js): text, common flag,
scoped team ids, active flag, display order. -/
structure Question where
  qid : String
  text : String
  isCommon : Bool
  teams : List String
  active : Bool
  order : Int
  deriving Repr, DecidableEq

/-- One `{question, answer}` response inside a status record; `question`
holds the question id. -/
structure DBResponse where
  question : String
  answer : String
  deriving Repr, DecidableEq

/-- A `StatusUpdate` document: the (user, team, date) key plus the leave
marker and responses.  `date` is the epoch day of the stored timestamp. -/
structure StatusRecord where
  user : String
  team : String
  date : Int
  isLeave : Bool
  leaveReason : Option String
  responses : List DBResponse
  deriving Repr, DecidableEq

/-- The database: one list per collection, in natural order. -/
structure DB where
  teams : List Team
  projects : List Project
  users : List DBUser
  questions : List Question
  statuses : List StatusRecord
  deriving Repr, DecidableEq

/-- The authenticated request user (`req.user`): id, role, and — for the
questions route — the manager's project ids (`req.user.projects`) and an
employee's team ids (`req.user.teams`). -/
structure ReqUser where
  uid : String
  role : String
  projects : List String
  memberTeams : List String
  deriving Repr, DecidableEq

/-! ## Excel report route (`src/server/routes/reports.js`, GET /excel) -/

/-- JS truthiness on an optional string parameter: absent or `""` is falsy. -/
def truthy : Option String → Option String
  | some s => if s = "" then none else some s
  | none => none

/-- The id-list parse `teams.split(',').map(id => id.trim()).filter(id => id)`. -/
def splitIds (s : String) : List String :=
  ((jsSplit s ',').map jsTrim).filter (fun t => t ≠ "")

/-- Lines 17–36: resolve the `teams`/`team` (or `users`/`user`) query
parameters into a list of ids. -/
def paramIds (multi single : Option String) : List String :=
  match truthy multi with
  | some s => splitIds s
  | none =>
    match truthy single with
    | some t => [t]
    | none => []

/-- Day-granular value of the JS constructor `new Date(y, mIdx, d)` with the
0-based month index `mIdx`; JS normalises out-of-range month and day
offsets, which the `fdiv`/`emod` adjustment reproduces. -/
def jsDateOfParts (y mIdx d : Int) : Int :=
  daysFromCivil (y + Int.fdiv mIdx 12) (Int.emod mIdx 12 + 1) 1 + (d - 1)

/-- Lines 45–71: the `$gte`/`$lte` date window.  Explicit `startDate`/
`endDate` win; else a given `month`/`year` selects that calendar month;
else the current month of `today` is used.  Date parameters are modelled
already parsed to epoch days. -/
def dateFilterRange (startDate endDate month year : Option Int) (today : Int) : Int × Int :=
  match startDate, endDate with
  | some s, some e => (s, e)
  | _, _ =>
    match month, year with
    | some m, some y => (jsDateOfParts y (m - 1) 1, jsDateOfParts y m 0)
    | _, _ =>
      let c := civilFromDays today
      (jsDateOfParts c.1 (c.2.1 - 1) 1, jsDateOfParts c.1 c.2.1 0)

/-- Lines 137–143: every date from the filter's lower to upper bound,
stepping one day; an inverted range yields the empty list, exactly as the
`for` loop does. -/
def allDatesList (lo hi : Int) : List Int :=
  (List.range (hi - lo + 1).toNat).map (fun (i : Nat) => lo + (i : Int))

/-- Line 86–87: ids of the projects whose `managers` contain the actor. -/
def managedProjectIds (db : DB) (actorId : String) : List String :=
  (db.projects.filter (fun p => p.managers.contains actorId)).map Project.pid

/-- Lines 89–101: the manager's accessible team ids — teams of managed
projects, intersected with the requested teams when some were requested. -/
def managerAccessibleTeamIds (db : DB) (actorId : String) (teamIds : List String) : List String :=
  let projectIds := managedProjectIds db actorId
  let accessibleTeams :=
    if ¬ teamIds.isEmpty then
      db.teams.filter (fun t => teamIds.contains t.tid && projectIds.contains t.project)
    else
      db.teams.filter (fun t => projectIds.contains t.project)
  accessibleTeams.map Team.tid

/-- Lines 120–132 and 146: `StatusUpdate.find(query)` — date window, plus a
user filter when users were requested, plus a team filter only when the
accessible-team list is non-empty. -/
def fetchStatusUpdates (db : DB) (accessibleTeamIds userIds : List String) (lo hi : Int) :
    List StatusRecord :=
  db.statuses.filter (fun s =>
    decide (lo ≤ s.date) && decide (s.date ≤ hi)
    && (userIds.isEmpty || userIds.contains s.user)
    && (accessibleTeamIds.isEmpty || accessibleTeamIds.contains s.team))

/-- Lines 154–160: the teams the report will iterate — the accessible
teams, except that a user-only request derives them from the fetched
records (first-occurrence deduplication, as `[...new Set(...)]`),
restricted to accessible teams. -/
def reportTeamIdsOf (teamIds userIds accessibleTeamIds : List String)
    (statusUpdates : List StatusRecord) : List String :=
  if ¬ userIds.isEmpty && teamIds.isEmpty then
    ((statusUpdates.map StatusRecord.team).eraseDups).filter
      (fun t => accessibleTeamIds.contains t)
  else accessibleTeamIds

/-- Lines 162–168: `Question.find({$or: [{isCommon: true}, {teams: {$in:
reportTeamIds}}]})` — note: no sort and no `active` filter. -/
def allQuestionsOf (db : DB) (reportTeamIds : List String) : List Question :=
  db.questions.filter (fun q =>
    q.isCommon || q.teams.any (fun t => reportTeamIds.contains t))

/-- Line 171: the `Team` documents of the report team ids, natural order. -/
def reportTeamsOf (db : DB) (reportTeamIds : List String) : List Team :=
  db.teams.filter (fun t => reportTeamIds.contains t.tid)

/-- Lines 174–184: the report users — the requested users restricted to
members of report teams, or all members of report teams. -/
def reportUsersOf (db : DB) (userIds reportTeamIds : List String) : List DBUser :=
  if ¬ userIds.isEmpty then
    db.users.filter (fun u =>
      userIds.contains u.uid && u.teams.any (fun t => reportTeamIds.contains t))
  else
    db.users.filter (fun u => u.teams.any (fun t => reportTeamIds.contains t))

/-- Lines 198–205: header row `[Team #, Resource Names, Questions,
<date1>, …]` with each date formatted `YYYY-MM-DD`. -/
def headersOf (allDates : List Int) : List String :=
  ["Team #", "Resource Names", "Questions"] ++ allDates.map isoOfDay

/-- Lines 222–239 and 295: `updatesByTeamUserDate[teamId]?.[userId]?.[dateStr]
|| []` — the `forEach` writes each record's responses at its key, a later
record overwriting an earlier one, hence the last match wins. -/
def lookupResponses (statusUpdates : List StatusRecord) (teamId userId : String) (d : Int) :
    List DBResponse :=
  match (statusUpdates.filter
      (fun s => s.team == teamId && s.user == userId && s.date == d)).getLast? with
  | some s => s.responses
  | none => []

/-- Lines 258–262: per-team applicable questions — common ones plus those
whose `teams` contain this team, in `allQuestions` order. -/
def teamQuestionsOf (allQuestions : List Question) (teamId : String) : List Question :=
  allQuestions.filter (fun q => q.isCommon || q.teams.contains teamId)

/-- Lines 250–252: report users that belong to the team. -/
def usersInTeamOf (reportUsers : List DBUser) (teamId : String) : List DBUser :=
  reportUsers.filter (fun u => u.teams.contains teamId)

/-- Lines 293–304: one date cell — the answer of the matching response of
the record at (team, user, date), or blank. -/
def dateCell (statusUpdates : List StatusRecord) (teamId userId : String)
    (q : Question) (d : Int) : String :=
  match (lookupResponses statusUpdates teamId userId d).find?
      (fun r => r.question == q.qid) with
  | some r => r.answer
  | none => ""

/-- Lines 271–306: one row — team name only on the team's very first row,
user name only on the user's first question row, question text, then the
date cells. -/
def buildRow (teamName : String) (u : DBUser) (q : Question) (userIndex questionIndex : Nat)
    (statusUpdates : List StatusRecord) (teamId : String) (allDates : List Int) : List String :=
  (if userIndex = 0 ∧ questionIndex = 0 then teamName else "")
  :: (if questionIndex = 0 then u.name else "")
  :: q.text
  :: allDates.map (dateCell statusUpdates teamId u.uid q)

/-- Lines 266–309: the nested user × question loops of one team. -/
def teamRowsOf (team : Team) (reportUsers : List DBUser) (allQuestions : List Question)
    (statusUpdates : List StatusRecord) (allDates : List Int) : List (List String) :=
  let usersInTeam := usersInTeamOf reportUsers team.tid
  let teamQuestions := teamQuestionsOf allQuestions team.tid
  usersInTeam.enum.flatMap (fun uiu =>
    teamQuestions.enum.map (fun qiq =>
      buildRow team.name uiu.2 qiq.2 uiu.1 qiq.1 statusUpdates team.tid allDates))

/-- Lines 245–316: all data rows — teams with no users are skipped entirely
(the early `return`), and an empty separator row follows each non-last
team that was not skipped. -/
def rowsOf (reportTeams : List Team) (reportUsers : List DBUser)
    (allQuestions : List Question) (statusUpdates : List StatusRecord)
    (allDates : List Int) : List (List String) :=
  reportTeams.enum.flatMap (fun tit =>
    if (usersInTeamOf reportUsers tit.2.tid).isEmpty then []
    else
      teamRowsOf tit.2 reportUsers allQuestions statusUpdates allDates
      ++ (if tit.1 < reportTeams.length - 1 then [[]] else []))

/-- The generated worksheet content: header row and data rows. -/
structure ExcelSheet where
  headers : List String
  rows : List (List String)
  deriving Repr, DecidableEq

/-- Outcome of GET /excel: a 400, 403, 404 response or the sheet. -/
inductive ReportResult where
  | badRequest (msg : String)
  | forbidden (msg : String)
  | notFound (msg : String)
  | sheet (s : ExcelSheet)
  deriving Repr, DecidableEq

/-- The query-string parameters of GET /excel; date-like parameters are
modelled already parsed to epoch days / integers. -/
structure ExcelQuery where
  team : Option String
  teams : Option String
  user : Option String
  users : Option String
  startDate : Option Int
  endDate : Option Int
  month : Option Int
  year : Option Int
  deriving Repr, DecidableEq

/-- Lines 115–351: the part of the route after the permission check —
404 when no accessible teams and no users, else fetch, derive the report
sets, and emit the sheet. -/
def finishReport (db : DB) (accessibleTeamIds teamIds userIds : List String)
    (range : Int × Int) : ReportResult :=
  if accessibleTeamIds.isEmpty && userIds.isEmpty then
    .notFound "No accessible teams or users found"
  else
    let allDates := allDatesList range.1 range.2
    let statusUpdates := fetchStatusUpdates db accessibleTeamIds userIds range.1 range.2
    let reportTeamIds := reportTeamIdsOf teamIds userIds accessibleTeamIds statusUpdates
    let allQuestions := allQuestionsOf db reportTeamIds
    let reportTeams := reportTeamsOf db reportTeamIds
    let reportUsers := reportUsersOf db userIds reportTeamIds
    .sheet { headers := headersOf allDates,
             rows := rowsOf reportTeams reportUsers allQuestions statusUpdates allDates }

/-- Lines 12–360: GET /excel — parameter parsing, the required-filter 400,
the date filter, the role-based access check with its 403s, then
`finishReport`. -/
def getExcelReport (db : DB) (reqUser : ReqUser) (q : ExcelQuery) (today : Int) :
    ReportResult :=
  let teamIds := paramIds q.teams q.team
  let userIds := paramIds q.users q.user
  if teamIds.isEmpty && userIds.isEmpty then
    .badRequest "Either team/teams or user/users is required"
  else
    let range := dateFilterRange q.startDate q.endDate q.month q.year today
    if reqUser.role == "admin" then
      let accessibleTeamIds :=
        if ¬ teamIds.isEmpty then teamIds else db.teams.map Team.tid
      finishReport db accessibleTeamIds teamIds userIds range
    else if reqUser.role == "manager" then
      let accessibleTeamIds := managerAccessibleTeamIds db reqUser.uid teamIds
      if ¬ teamIds.isEmpty && accessibleTeamIds.isEmpty then
        .forbidden "You do not have permission to access the requested teams"
      else
        finishReport db accessibleTeamIds teamIds userIds range
    else
      .forbidden "Only managers and admins can generate reports"

/-! ## Question listing route (`src/server/routes/questions.js`, GET /) -/

/-- The GET /api/questions query-string parameters. -/
structure QuestionsQuery where
  isCommon : Option String
  team : Option String
  deriving Repr, DecidableEq

/-- Lines 56–101: build the Mongo query — optional `isCommon` and `team`
filters, and for managers/employees without a `team` parameter an `$or`
restricting to common questions or questions scoped to an accessible
team; then `find` and sort by `order` ascending.  No `active` filter is
applied anywhere. -/
def getQuestions (db : DB) (reqUser : ReqUser) (q : QuestionsQuery) : List Question :=
  let baseOk := fun (question : Question) =>
    (match truthy q.isCommon with
     | some s => question.isCommon == (s == "true")
     | none => true)
    && (match truthy q.team with
        | some t => question.teams.contains t
        | none => true)
  let accessOk := fun (question : Question) =>
    if reqUser.role == "manager" then
      match truthy q.team with
      | some _ => true
      | none =>
        let teamIds :=
          (db.teams.filter (fun t => reqUser.projects.contains t.project)).map Team.tid
        question.isCommon || question.teams.any (fun t => teamIds.contains t)
    else if reqUser.role == "employee" then
      match truthy q.team with
      | some _ => true
      | none =>
        question.isCommon || question.teams.any (fun t => reqUser.memberTeams.contains t)
    else true
  (db.questions.filter (fun question => baseOk question && accessOk question)).mergeSort
    (fun a b => decide (a.order ≤ b.order))

/-- The header row of a generated sheet, if the route produced one. -/
def resultHeaders : ReportResult → Option (List String)
  | .sheet s => some s.headers
  | _ => none

/-! ## Concrete fixtures used by the counterexamples and witnesses -/

/-- Two teams: `A` in project `P1` (managed by `M`), `B` in project `P2`
(managed by nobody), one member and one status record each. -/
def twoTeamDB : DB :=
  { teams := [⟨"A", "Team A", "P1"⟩, ⟨"B", "Team B", "P2"⟩],
    projects := [⟨"P1", ["M"]⟩, ⟨"P2", []⟩],
    users := [⟨"U1", "Alice", ["A"]⟩, ⟨"U3", "Carol", ["B"]⟩],
    questions := [⟨"Q1", "Common Q", true, [], true, 1⟩],
    statuses := [⟨"U1", "A", 100, false, none, [⟨"Q1", "ansA"⟩]⟩,
                 ⟨"U3", "B", 100, false, none, [⟨"Q1", "secretB"⟩]⟩] }

/-- One team with two common questions whose display orders (2 then 1) are
the reverse of their collection order. -/
def unsortedDB : DB :=
  { teams := [⟨"A", "Team A", "P1"⟩],
    projects := [],
    users := [⟨"U1", "Alice", ["A"]⟩],
    questions := [⟨"QX", "First listed", true, [], true, 2⟩,
                  ⟨"QY", "Second listed", true, [], true, 1⟩],
    statuses := [] }

/-- A database whose only question is common but inactive. -/
def inactiveQuestionDB : DB :=
  { teams := [], projects := [], users := [],
    questions := [⟨"QI", "Old inactive", true, [], false, 0⟩],
    statuses := [] }

/-- One team whose only record is a leave record (empty responses, as the
leave branch of `handleSubmit` posts). -/
def leaveDB : DB :=
  { teams := [⟨"A", "Team A", "P1"⟩],
    projects := [],
    users := [⟨"U1", "Alice", ["A"]⟩],
    questions := [⟨"Q1", "Common Q", true, [], true, 1⟩],
    statuses := [⟨"U1", "A", 100, true, some "sick", []⟩] }

/-! ## Claim theorems -/

/-- C1 counterexample: an actor with a *different* id than the record's
submitter, and role `employee`, still gets `canEdit = true` whenever the
names coincide — the claim's "false for a different employee" fails. -/
theorem canEdit_name_match_counterexample :
    canEdit (some ⟨"u2", "Alice", "alice2@example.com", "employee"⟩)
        (some ⟨some ⟨some "u1", "Alice"⟩⟩) = true
    ∧ ("u2" : String) ≠ "u1"
    ∧ ("employee" : String) ≠ "manager" ∧ ("employee" : String) ≠ "admin" := by
  refine ⟨rfl, by decide, by decide, by decide⟩

/-- C1 (amended): `canEdit` is true for every actor when no record exists;
when a record exists it is true iff the record's `updatedBy` is present and
matches the actor by id **or by name**, or the actor's role is `manager`
or `admin`. -/
theorem canEdit_characterisation (a : ClientUser) (ps : PreviousStatus) :
    (∀ u : Option ClientUser, canEdit u none = true)
    ∧ (canEdit (some a) (some ps) = true ↔
        (∃ ub, ps.updatedBy = some ub
          ∧ ((∃ i, ub.id = some i ∧ a.id = i) ∨ a.name = ub.name))
        ∨ a.role = "manager" ∨ a.role = "admin") := by
  refine ⟨fun u => by cases u <;> rfl, ?_⟩
  cases hub : ps.updatedBy with
  | none => simp [canEdit, hub, or_assoc]
  | some ub =>
    cases hid : ub.id with
    | none => simp [canEdit, hub, hid, or_assoc]
    | some i => simp [canEdit, hub, hid, or_assoc, @eq_comm String a.id i]

/-- C3: the submission window — `validateDate` accepts exactly the days
from `today - 2` to `today`; with reference day 2024-06-10, the days
2024-06-08/09/10 are accepted and 2024-06-07 and 2024-06-11 rejected. -/
theorem validateDate_window :
    (∀ date today : Int, validateDate date today = true ↔ today - 2 ≤ date ∧ date ≤ today)
    ∧ validateDate (daysFromCivil 2024 6 8) (daysFromCivil 2024 6 10) = true
    ∧ validateDate (daysFromCivil 2024 6 9) (daysFromCivil 2024 6 10) = true
    ∧ validateDate (daysFromCivil 2024 6 10) (daysFromCivil 2024 6 10) = true
    ∧ validateDate (daysFromCivil 2024 6 7) (daysFromCivil 2024 6 10) = false
    ∧ validateDate (daysFromCivil 2024 6 11) (daysFromCivil 2024 6 10) = false := by
  refine ⟨fun date today => ?_, by decide, by decide, by decide, by decide, by decide⟩
  simp [validateDate, minDate, maxDate]

/-- C7: a leave submission with a blank (trim-empty) reason fails with the
leave-reason error, and a regular submission whose answers are all blank
fails with the at-least-one-response error; in both cases no payload is
produced, so nothing is posted or stored. -/
theorem handleSubmit_validation (tid uid : String) (sd td : Int) (lr : String)
    (rs : List StatusResponse) (hdate : validateDate sd td = true) :
    (jsTrim lr = "" →
      handleSubmit tid uid sd td true lr rs = .error "Please provide a reason for leave")
    ∧ ((∀ r ∈ rs, jsTrim r.answer = "") →
      handleSubmit tid uid sd td false lr rs = .error "Please provide at least one response")
    ∧ (jsTrim lr = "" → ∀ p, handleSubmit tid uid sd td true lr rs ≠ .ok p)
    ∧ ((∀ r ∈ rs, jsTrim r.answer = "") → ∀ p, handleSubmit tid uid sd td false lr rs ≠ .ok p) := by
  have h1 : jsTrim lr = "" →
      handleSubmit tid uid sd td true lr rs = .error "Please provide a reason for leave" := by
    intro h
    simp [handleSubmit, hdate, h]
  have h2 : (∀ r ∈ rs, jsTrim r.answer = "") →
      handleSubmit tid uid sd td false lr rs = .error "Please provide at least one response" := by
    intro h
    have hblank : rs.filter (fun r => jsTrim r.answer ≠ "") = [] := by
      refine List.filter_eq_nil_iff.mpr (fun r hr => ?_)
      simp [h r hr]
    simp [handleSubmit, hdate, hblank]
    exact h
  exact ⟨h1, h2,
    fun h p => by rw [h1 h]; exact fun hc => Except.noConfusion hc,
    fun h p => by rw [h2 h]; exact fun hc => Except.noConfusion hc⟩

/-- C7 witness: concrete instances of both validation failures. -/
theorem handleSubmit_validation_witness :
    handleSubmit "A" "U1" 0 0 true "   " [⟨"Q1", "x"⟩] = .error "Please provide a reason for leave"
    ∧ handleSubmit "A" "U1" 0 0 false "r" [⟨"Q1", "  "⟩] = .error "Please provide at least one response" :=
  ⟨(handleSubmit_validation "A" "U1" 0 0 "   " [⟨"Q1", "x"⟩] (by decide)).1 (by decide),
   (handleSubmit_validation "A" "U1" 0 0 "r" [⟨"Q1", "  "⟩] (by decide)).2.1 (by decide)⟩

/-- C10: a report request with none of `team`, `teams`, `user`, `users`
gets the 400 response, for every database and every actor — the check runs
before any access check or data fetch. -/
theorem excel_requires_team_or_user (db : DB) (u : ReqUser) (q : ExcelQuery) (today : Int)
    (hteam : q.team = none) (hteams : q.teams = none)
    (huser : q.user = none) (husers : q.users = none) :
    getExcelReport db u q today = .badRequest "Either team/teams or user/users is required" := by
  simp [getExcelReport, paramIds, truthy, hteam, hteams, huser, husers]

/-- C10 witness: a concrete filterless request — even from an employee
against a non-empty database — yields the 400 response. -/
theorem excel_requires_team_or_user_witness :
    getExcelReport twoTeamDB ⟨"E", "employee", [], []⟩
        ⟨none, none, none, none, some 100, some 100, none, none⟩ 200
      = .badRequest "Either team/teams or user/users is required" :=
  excel_requires_team_or_user twoTeamDB ⟨"E", "employee", [], []⟩
    ⟨none, none, none, none, some 100, some 100, none, none⟩ 200 rfl rfl rfl rfl

/-- C8 counterexample: a question with `active = false` is still returned
by the question list that the submission form fetches — the route never
filters on `active`. -/
theorem inactive_question_served_counterexample :
    getQuestions inactiveQuestionDB ⟨"E", "employee", [], ["A"]⟩ ⟨none, none⟩
      = [⟨"QI", "Old inactive", true, [], false, 0⟩]
    ∧ (⟨"QI", "Old inactive", true, [], false, 0⟩ : Question).active = false := by
  refine ⟨?_, rfl⟩
  show (List.filter _ _).mergeSort _ = _
  rw [show List.filter _ inactiveQuestionDB.questions
      = [⟨"QI", "Old inactive", true, [], false, 0⟩] from by decide]
  exact List.mergeSort_singleton _

/-- C8 (amended): for an employee with no query parameters, the served
question list contains a question iff it is in the collection and is
common or scoped to one of the employee's teams — the `active` flag is
never consulted, so inactive questions are served to new submission forms
as well. -/
theorem getQuestions_ignores_active (db : DB) (u : ReqUser) (question : Question)
    (hrole : u.role = "employee") :
    question ∈ getQuestions db u ⟨none, none⟩ ↔
      question ∈ db.questions
      ∧ (question.isCommon = true ∨ ∃ t ∈ question.teams, t ∈ u.memberTeams) := by
  simp [getQuestions, hrole, truthy, List.mem_mergeSort, List.mem_filter]

/-- C8 witness: the concrete inactive question is a member of the served
list for a concrete employee. -/
theorem getQuestions_ignores_active_witness :
    (⟨"QI", "Old inactive", true, [], false, 0⟩ : Question)
      ∈ getQuestions inactiveQuestionDB ⟨"E", "employee", [], ["A"]⟩ ⟨none, none⟩ :=
  (getQuestions_ignores_active inactiveQuestionDB ⟨"E", "employee", [], ["A"]⟩ _ rfl).mpr
    ⟨by simp [inactiveQuestionDB], Or.inl rfl⟩

/-- The question column (index 2) of a team's rows is one copy of the
team's applicable-question texts per user of the team, independent of the
status records. -/
theorem teamRows_question_column (team : Team) (users : List DBUser)
    (allQ : List Question) (su : List StatusRecord) (dates : List Int) :
    (teamRowsOf team users allQ su dates).map (fun r => r.getD 2 "")
      = (usersInTeamOf users team.tid).flatMap
          (fun _ => (teamQuestionsOf allQ team.tid).map Question.text) := by
  unfold teamRowsOf
  rw [List.map_flatMap]
  have hinner : ∀ uiu : Nat × DBUser,
      ((teamQuestionsOf allQ team.tid).enum.map
          (fun qiq => buildRow team.name uiu.2 qiq.2 uiu.1 qiq.1 su team.tid dates)).map
        (fun r => r.getD 2 "")
      = (teamQuestionsOf allQ team.tid).map Question.text := by
    intro uiu
    rw [List.map_map]
    have : ((teamQuestionsOf allQ team.tid).enum.map
        ((fun r => r.getD 2 "") ∘ fun qiq => buildRow team.name uiu.2 qiq.2 uiu.1 qiq.1 su team.tid dates))
        = (teamQuestionsOf allQ team.tid).enum.map (fun qiq => qiq.2.text) := by
      refine List.map_congr_left (fun qiq _ => ?_)
      simp [buildRow, List.getD]
    rw [this, show (fun qiq : Nat × Question => qiq.2.text) = Question.text ∘ Prod.snd from rfl,
      ← List.map_map, List.enum_map_snd]
  calc (usersInTeamOf users team.tid).enum.flatMap
        (fun uiu => ((teamQuestionsOf allQ team.tid).enum.map
          (fun qiq => buildRow team.name uiu.2 qiq.2 uiu.1 qiq.1 su team.tid dates)).map
            (fun r => r.getD 2 ""))
      = (usersInTeamOf users team.tid).enum.flatMap
          (fun _ => (teamQuestionsOf allQ team.tid).map Question.text) := by
        exact List.flatMap_congr (fun uiu _ => hinner uiu)
    _ = (usersInTeamOf users team.tid).flatMap
          (fun _ => (teamQuestionsOf allQ team.tid).map Question.text) := by
        rw [List.flatMap_def, List.flatMap_def, List.map_const', List.map_const',
          List.enum_length]

/-- C4 counterexample: with two common questions stored in the order
(display-order 2, display-order 1), the report emits their rows in the
stored order — "First listed" (order 2) before "Second listed" (order 1) —
not ascending display-order. -/
theorem report_questions_unsorted_counterexample :
    getExcelReport unsortedDB ⟨"AD", "admin", [], []⟩
        ⟨some "A", none, none, none, some 100, some 100, none, none⟩ 0
      = .sheet { headers := ["Team #", "Resource Names", "Questions", "1970-04-11"],
                 rows := [["Team A", "Alice", "First listed", ""],
                          ["", "", "Second listed", ""]] }
    ∧ unsortedDB.questions.map Question.order = [2, 1] := by
  exact ⟨by decide, by decide⟩

/-- C4 (amended): per team the applicable-question set is exactly every
common question plus every question whose team-scope includes the team,
but the rows are emitted in the question collection's original order (a
sublist of `db.questions`); the report route applies no sort on the
display-order field. -/
theorem report_questions_in_collection_order (db : DB) (tids : List String) (tid : String)
    (htid : tid ∈ tids) :
    (∀ q : Question, q ∈ teamQuestionsOf (allQuestionsOf db tids) tid ↔
        q ∈ db.questions ∧ (q.isCommon = true ∨ tid ∈ q.teams))
    ∧ (teamQuestionsOf (allQuestionsOf db tids) tid).Sublist db.questions
    ∧ (∀ (team : Team) (users : List DBUser) (su : List StatusRecord) (dates : List Int),
        (teamRowsOf team users (allQuestionsOf db tids) su dates).map (fun r => r.getD 2 "")
          = (usersInTeamOf users team.tid).flatMap
              (fun _ => (teamQuestionsOf (allQuestionsOf db tids) team.tid).map Question.text)) := by
  refine ⟨fun q => ?_, (List.filter_sublist _).trans (List.filter_sublist _),
    fun team users su dates => teamRows_question_column team users _ su dates⟩
  simp only [teamQuestionsOf, allQuestionsOf, List.mem_filter, Bool.or_eq_true,
    Bool.and_eq_true, List.any_eq_true]
  constructor
  · rintro ⟨⟨hq, _⟩, hc⟩
    refine ⟨hq, ?_⟩
    rcases hc with hc | hc
    · exact Or.inl hc
    · exact Or.inr (by simpa using hc)
  · rintro ⟨hq, hc⟩
    rcases hc with hc | hc
    · exact ⟨⟨hq, Or.inl hc⟩, Or.inl hc⟩
    · refine ⟨⟨hq, Or.inr ⟨tid, by simpa using hc, by simpa using htid⟩⟩, Or.inr (by simpa using hc)⟩

/-- C4 witness: the applicable questions of team `A` in the concrete
unsorted database form a sublist of the stored question collection. -/
theorem report_questions_in_collection_order_witness :
    (teamQuestionsOf (allQuestionsOf unsortedDB ["A"]) "A").Sublist unsortedDB.questions :=
  (report_questions_in_collection_order unsortedDB ["A"] "A" (by decide)).2.1

/-- C5: leave-day blanks.  (i) The leave branch of `handleSubmit` always
posts `isLeave = true` with `responses = []`; (ii) if every record stored
at (team, user, date) has empty responses — as a leave record does — then
every question's cell of that user in that date column is blank; (iii) the
user's question rows are emitted independently of the status records, so a
leave day removes no rows. -/
theorem leave_day_blanks (su : List StatusRecord) (tid uid : String) (d : Int)
    (hresp : ∀ s ∈ su, s.team = tid → s.user = uid → s.date = d → s.responses = []) :
    (∀ (t u' : String) (sd td : Int) (lr : String) (rs : List StatusResponse) (p : StatusData),
        handleSubmit t u' sd td true lr rs = .ok p → p.isLeave = true ∧ p.responses = [])
    ∧ (∀ q : Question, dateCell su tid uid q d = "")
    ∧ (∀ (team : Team) (users : List DBUser) (allQ : List Question) (dates : List Int),
        (teamRowsOf team users allQ su dates).map (fun r => r.getD 2 "")
          = (usersInTeamOf users team.tid).flatMap
              (fun _ => (teamQuestionsOf allQ team.tid).map Question.text)) := by
  refine ⟨?_, ?_, fun team users allQ dates => teamRows_question_column team users allQ su dates⟩
  · intro t u' sd td lr rs p h
    by_cases hv : validateDate sd td
    · by_cases hlr : jsTrim lr = ""
      · simp [handleSubmit, hv, hlr] at h
      · simp [handleSubmit, hv, hlr] at h
        exact ⟨by rw [← h], by rw [← h]⟩
    · simp [handleSubmit, hv] at h
  · intro q
    have hlook : lookupResponses su tid uid d = [] := by
      unfold lookupResponses
      cases hL : (su.filter fun s => s.team == tid && s.user == uid && s.date == d).getLast? with
      | none => rfl
      | some s =>
        obtain ⟨hne, heq⟩ := List.mem_getLast?_eq_getLast
          (l := su.filter fun s => s.team == tid && s.user == uid && s.date == d)
          (x := s) (Option.mem_def.mpr hL)
        have hmem := heq ▸ List.getLast_mem hne
        obtain ⟨hsu, hcond⟩ := List.mem_filter.mp hmem
        simp only [Bool.and_eq_true, beq_iff_eq] at hcond
        exact hresp s hsu hcond.1.1 hcond.1.2 hcond.2
    unfold dateCell
    rw [hlook]
    rfl

/-- C5 witness: in the concrete leave database the cell of the common
question on the leave day is blank. -/
theorem leave_day_blanks_witness :
    dateCell leaveDB.statuses "A" "U1" ⟨"Q1", "Common Q", true, [], true, 1⟩ 100 = "" :=
  (leave_day_blanks leaveDB.statuses "A" "U1" 100 (by decide)).2.1
    ⟨"Q1", "Common Q", true, [], true, 1⟩

/-- C6 counterexample: an inverted date range (`startDate > endDate`) does
not produce a validation error — the report is generated normally, just
with zero date columns. -/
theorem inverted_range_no_error_counterexample :
    getExcelReport twoTeamDB ⟨"AD", "admin", [], []⟩
        ⟨some "A", none, none, none, some 105, some 100, none, none⟩ 0
      = .sheet { headers := ["Team #", "Resource Names", "Questions"],
                 rows := [["Team A", "Alice", "Common Q"]] }
    ∧ (105 : Int) > 100 :=
  ⟨by decide, by decide⟩

/-- C6 (amended): the route never rejects a date range; the date columns
are exactly the calendar days of `[dateStart, dateEnd]`, strictly
ascending, and empty when `dateStart > dateEnd`; for an admin request with
explicit dates (and some requested team) the result is always a sheet
whose header row appends those columns. -/
theorem report_date_columns (lo hi : Int) :
    (∀ d : Int, d ∈ allDatesList lo hi ↔ lo ≤ d ∧ d ≤ hi)
    ∧ (allDatesList lo hi).Pairwise (· < ·)
    ∧ (hi < lo → allDatesList lo hi = [])
    ∧ (∀ (db : DB) (u : ReqUser) (q : ExcelQuery) (today : Int),
        u.role = "admin" → q.startDate = some lo → q.endDate = some hi →
        paramIds q.teams q.team ≠ [] →
        resultHeaders (getExcelReport db u q today)
          = some (headersOf (allDatesList lo hi))) := by
  refine ⟨fun d => ?_, ?_, fun h => ?_, fun db u q today hrole hs he hreq => ?_⟩
  · simp only [allDatesList, List.mem_map, List.mem_range]
    constructor
    · rintro ⟨i, h1, rfl⟩; omega
    · rintro ⟨h1, h2⟩; exact ⟨(d - lo).toNat, by omega, by omega⟩
  · rw [allDatesList, List.pairwise_iff_getElem]
    intro i j hi hj hij
    simp only [List.getElem_map, List.getElem_range]
    omega
  · unfold allDatesList
    rw [show (hi - lo + 1).toNat = 0 from by omega]
    rfl
  · have hne : (paramIds q.teams q.team).isEmpty = false := by
      cases hpe : (paramIds q.teams q.team).isEmpty
      · rfl
      · exact absurd (List.isEmpty_iff.mp hpe) hreq
    have hrange : dateFilterRange q.startDate q.endDate q.month q.year today = (lo, hi) := by
      rw [hs, he]
      rfl
    unfold getExcelReport
    simp only [hne, hrole, hrange, finishReport, Bool.false_and, Bool.false_eq_true, if_false,
      Bool.and_eq_true, List.isEmpty_iff]
    simp only [resultHeaders, hne, beq_self_eq_true, if_true, Bool.false_eq_true,
      not_false_iff, decide_True, if_false, List.isEmpty_iff]
    rw [if_neg (fun hc => hreq hc.1)]

/-- C6 witness: 5 is one of the date columns for the range [3, 7], and the
inverted range [7, 3] yields no date columns. -/
theorem report_date_columns_witness :
    (5 : Int) ∈ allDatesList 3 7 ∧ allDatesList 7 3 = [] :=
  ⟨((report_date_columns 3 7).1 5).mpr (by decide),
   (report_date_columns 7 3).2.2.1 (by decide)⟩

/-- C2 counterexample: manager `M` (who manages only team `A`'s project)
requests teams `A,B`; team `B` is not accessible, yet the result is a
normal sheet (team `A` only) — not `Forbidden`. -/
theorem manager_partial_access_counterexample :
    getExcelReport twoTeamDB ⟨"M", "manager", [], []⟩
        ⟨none, some "A,B", none, none, some 100, some 100, none, none⟩ 200
      = .sheet { headers := ["Team #", "Resource Names", "Questions", "1970-04-11"],
                 rows := [["Team A", "Alice", "Common Q", "ansA"]] }
    ∧ "B" ∈ paramIds (some "A,B") none
    ∧ "B" ∉ managerAccessibleTeamIds twoTeamDB "M" (paramIds (some "A,B") none) :=
  ⟨by decide, by decide, by decide⟩

/-- C2 (amended): for a manager with a non-empty requested team set the
route answers `Forbidden` iff *no* requested team is accessible (the
intersection with the managed-project teams is empty); otherwise the
report proceeds over the accessible subset, and every fetched status
record belongs to an accessible team, so no data of inaccessible teams is
returned. -/
theorem manager_scoping (db : DB) (u : ReqUser) (q : ExcelQuery) (today : Int)
    (hrole : u.role = "manager") (hreq : paramIds q.teams q.team ≠ []) :
    (getExcelReport db u q today
        = .forbidden "You do not have permission to access the requested teams"
      ↔ managerAccessibleTeamIds db u.uid (paramIds q.teams q.team) = [])
    ∧ (∀ (acc uids : List String) (lo hi : Int) (s : StatusRecord),
        acc ≠ [] → s ∈ fetchStatusUpdates db acc uids lo hi → s.team ∈ acc) := by
  constructor
  · have hne : (paramIds q.teams q.team).isEmpty = false := by
      cases hpe : (paramIds q.teams q.team).isEmpty
      · rfl
      · exact absurd (List.isEmpty_iff.mp hpe) hreq
    by_cases hacc : managerAccessibleTeamIds db u.uid (paramIds q.teams q.team) = []
    · simp [getExcelReport, hrole, hne, hacc]
    · have hacce : (managerAccessibleTeamIds db u.uid (paramIds q.teams q.team)).isEmpty = false := by
        cases hpe : (managerAccessibleTeamIds db u.uid (paramIds q.teams q.team)).isEmpty
        · rfl
        · exact absurd (List.isEmpty_iff.mp hpe) hacc
      simp only [getExcelReport, hrole, hne, hacce, finishReport]
      constructor
      · intro hcon
        split at hcon <;> simp_all
      · intro hcon
        exact absurd hcon hacc
  · intro acc uids lo hi s hacc hs
    obtain ⟨_, hcond⟩ := List.mem_filter.mp hs
    have hae : acc.isEmpty = false := by
      cases hpe : acc.isEmpty
      · rfl
      · exact absurd (List.isEmpty_iff.mp hpe) hacc
    simp only [hae, Bool.and_eq_true, Bool.or_eq_true, Bool.false_eq_true, false_or] at hcond
    simpa using hcond.2

/-- C2 witness: for the concrete manager request `A,B` (one team
accessible), the route does not answer `Forbidden`. -/
theorem manager_scoping_witness :
    getExcelReport twoTeamDB ⟨"M", "manager", [], []⟩
        ⟨none, some "A,B", none, none, some 100, some 100, none, none⟩ 200
      ≠ .forbidden "You do not have permission to access the requested teams" := by
  have h := manager_scoping twoTeamDB ⟨"M", "manager", [], []⟩
    ⟨none, some "A,B", none, none, some 100, some 100, none, none⟩ 200 rfl (by decide)
  intro hc
  exact (by decide :
      managerAccessibleTeamIds twoTeamDB "M" (paramIds (some "A,B") none) ≠ [])
    (h.1.mp hc)

/-- C9 counterexample: a manager with no managed projects queries by user
only; the status query fetches the record of inaccessible team `B` (the
claim's first half), but the produced sheet has no rows at all, so the
fetched record does not appear in the report (refuting the claim's "can
appear"). -/
theorem userOnly_fetch_counterexample :
    (⟨"U3", "B", 100, false, none, [⟨"Q1", "secretB"⟩]⟩ : StatusRecord)
      ∈ fetchStatusUpdates twoTeamDB [] ["U3"] 100 100
    ∧ managerAccessibleTeamIds twoTeamDB "M9" [] = []
    ∧ getExcelReport twoTeamDB ⟨"M9", "manager", [], []⟩
        ⟨none, none, none, some "U3", some 100, some 100, none, none⟩ 200
      = .sheet { headers := ["Team #", "Resource Names", "Questions", "1970-04-11"],
                 rows := [] } :=
  ⟨by decide, by decide, by decide⟩

/-- C9 (amended): with an empty accessible-team set the status query is
filtered only by date and user — records of teams outside the actor's
scope are fetched — but such records cannot appear in the report: the
report team set is the intersection with the (empty) accessible set, so
the emitted sheet has no rows. -/
theorem userOnly_query_unscoped (db : DB) (userIds : List String) (lo hi : Int) :
    (∀ s : StatusRecord, s ∈ fetchStatusUpdates db [] userIds lo hi ↔
        s ∈ db.statuses ∧ lo ≤ s.date ∧ s.date ≤ hi ∧ (userIds = [] ∨ s.user ∈ userIds))
    ∧ (∀ (u : ReqUser) (q : ExcelQuery) (today : Int),
        u.role = "manager" →
        paramIds q.teams q.team = [] →
        paramIds q.users q.user ≠ [] →
        managerAccessibleTeamIds db u.uid (paramIds q.teams q.team) = [] →
        getExcelReport db u q today
          = .sheet { headers := headersOf (allDatesList
                         (dateFilterRange q.startDate q.endDate q.month q.year today).1
                         (dateFilterRange q.startDate q.endDate q.month q.year today).2),
                     rows := [] }) := by
  constructor
  · intro s
    simp only [fetchStatusUpdates, List.mem_filter, List.isEmpty_nil, Bool.true_or,
      Bool.and_eq_true, decide_eq_true_eq, Bool.or_eq_true, List.isEmpty_iff]
    constructor
    · rintro ⟨hs, ⟨⟨h1, h2⟩, h3⟩, _⟩
      refine ⟨hs, h1, h2, ?_⟩
      rcases h3 with h3 | h3
      · exact Or.inl h3
      · exact Or.inr (by simpa using h3)
    · rintro ⟨hs, h1, h2, h3⟩
      refine ⟨hs, ⟨⟨h1, h2⟩, ?_⟩, by simp⟩
      rcases h3 with h3 | h3
      · exact Or.inl h3
      · exact Or.inr (by simpa using h3)
  · intro u q today hrole hteams husers hMacc
    have hue : (paramIds q.users q.user).isEmpty = false := by
      cases hpe : (paramIds q.users q.user).isEmpty
      · rfl
      · exact absurd (List.isEmpty_iff.mp hpe) husers
    rw [hteams] at hMacc
    have hrt : ∀ su : List StatusRecord,
        reportTeamIdsOf [] (paramIds q.users q.user) [] su = [] := by
      intro su
      simp only [reportTeamIdsOf, hue, List.isEmpty_nil, Bool.not_false, Bool.and_true,
        decide_not, Bool.not_eq_true']
      rw [if_pos (by simp [hue])]
      exact List.filter_eq_nil_iff.mpr (fun a _ => by simp)
    have hteams0 : reportTeamsOf db [] = [] :=
      List.filter_eq_nil_iff.mpr (fun t _ => by simp)
    simp only [getExcelReport, hteams, hrole, finishReport, hMacc, hrt, hteams0, hue]
    simp [rowsOf, headersOf]

/-- C9 witness: the concrete no-project manager's user-only request
produces a sheet with headers but no rows. -/
theorem userOnly_query_unscoped_witness :
    getExcelReport twoTeamDB ⟨"M9", "manager", [], []⟩
        ⟨none, none, none, some "U3", some 100, some 100, none, none⟩ 200
      = .sheet { headers := headersOf (allDatesList 100 100), rows := [] } :=
  (userOnly_query_unscoped twoTeamDB ["U3"] 100 100).2
    ⟨"M9", "manager", [], []⟩ ⟨none, none, none, some "U3", some 100, some 100, none, none⟩ 200
    rfl rfl (by decide) (by decide)

end StatusTracker
